import Mathlib

/-!
Verification of the Crypto Cascade match-3 engine.

The source is a single React component.  Its game core consists of:
`createInitialGrid`, `findMatches`, `processCascade` (clear matched cells,
per-column gravity, refill from the top), `processCascadingMatches`
(the cascade loop plus the final state update) and `handleTokenClick`
(selection / swap handling).  This file gives a shallow embedding of that
core and proves the specification claims about it.

Modelling decisions:
* `GRID_SIZE` is 8 in the source; the literal 8 is used throughout.
* A grid is a list of rows, each a list of `Option Token`
  (`null` in the source becomes `none`).
* JavaScript `Math.random()`-driven token creation is modelled by a
  `Refill` parameter supplying a kind and a fresh id per cell; the cascade
  loop takes one `Refill` per iteration.
* Token ids (strings in the source) are modelled as `Nat`.
* `moves` can go below zero in the source (plain JS subtraction), so it is
  an `Int`; `score`, `level` and `targetScore` stay non-negative integers.
* `targetScore * 1.5` in the source is exact binary-float arithmetic for the
  integer targets that occur (1.5 = 3/2 with a short mantissa), so it is
  modelled as exact rational arithmetic followed by `Math.floor`.
-/

/-- The six token kinds of `TOKEN_TYPES`. -/
inductive TokenType : Type where
  | ETH | BTC | USDC | MATIC | BASE | WETH
deriving DecidableEq, Repr

/-- The `Token` interface of the source: id, kind, stored position, flags. -/
structure Token : Type where
  id : Nat
  type : TokenType
  row : Nat
  col : Nat
  isMatched : Bool
  isFalling : Bool
deriving DecidableEq, Repr

/-- A grid: `(Token | null)[][]` of the source, row major. -/
abbrev Grid : Type := List (List (Option Token))

/-- Cell access `grid[r][c]`; out-of-range access yields `none` (the source
never indexes out of range: all loops run over `0 ≤ r, c < 8`). -/
def gcell (g : Grid) (r c : Nat) : Option Token := (g.getD r []).getD c none

/-- Build an 8×8 grid from a cell function (the source builds its new grids
cell by cell over the fixed 8×8 index range). -/
def rebuild (f : Nat → Nat → Option Token) : Grid :=
  (List.range 8).map fun r => (List.range 8).map fun c => f r c

/-- One batch of randomness: the kind and the fresh id that
`TOKEN_TYPES[Math.floor(Math.random() * TOKEN_TYPES.length)]` and the id
template produce for a cell being (re)filled. -/
structure Refill : Type where
  kind : Nat → Nat → TokenType
  idv : Nat → Nat → Nat

/-- A token created by the refill step of `processCascade`
(`isFalling: true`). -/
def freshToken (sup : Refill) (r c : Nat) : Token :=
  { id := sup.idv r c, type := sup.kind r c, row := r, col := c,
    isMatched := false, isFalling := true }

/-- A token created by `createInitialGrid` (`isFalling: false`). -/
def initToken (sup : Refill) (r c : Nat) : Token :=
  { id := sup.idv r c, type := sup.kind r c, row := r, col := c,
    isMatched := false, isFalling := false }

/-- Source `createInitialGrid`: every slot receives a freshly generated token whose
stored position is its slot. -/
def createInitialGrid (sup : Refill) : Grid :=
  rebuild fun r c => some (initToken sup r c)

/-- One horizontal/vertical window test of `findMatches`: the three
consecutive cells `f i`, `f (i+1)`, `f (i+2)` of a line are all non-null and
of pairwise equal kind (`token1 && token2 && token3 && type equalities`). -/
def winB (f : Nat → Option Token) (i : Nat) : Bool :=
  match f i, f (i + 1), f (i + 2) with
  | some t1, some t2, some t3 =>
      decide (t1.type = t2.type) && decide (t2.type = t3.type)
  | _, _, _ => false

/-- Membership of position `j` in the cells contributed by the window scan of
one line: `findMatches` runs the window start `i` over `0..5` and adds the
cells `i`, `i+1`, `i+2` of every successful window to the match set. -/
def lineMatchedB (f : Nat → Option Token) (j : Nat) : Bool :=
  (List.range 6).any fun i => winB f i && decide (i ≤ j) && decide (j ≤ i + 2)

/-- The kind stored at position `i` of a line, if any. -/
def fkind (f : Nat → Option Token) (i : Nat) : Option TokenType :=
  (f i).map Token.type

/-- Spec-side segment test: positions `lo, lo+1, ..., lo+len-1` of a line all
hold tokens of one common kind. -/
def segB (f : Nat → Option Token) (lo len : Nat) : Bool :=
  match fkind f lo with
  | some k => (List.range len).all fun d => decide (fkind f (lo + d) = some k)
  | none => false

/-- Spec-side membership of position `j` in some run of ≥ 3 consecutive
same-kind tokens within the 8 cells of a line. -/
def lineRunB (f : Nat → Option Token) (j : Nat) : Bool :=
  (List.range 8).any fun lo => (List.range 9).any fun len =>
    decide (3 ≤ len) && decide (lo + len ≤ 8) && decide (lo ≤ j) &&
      decide (j < lo + len) && segB f lo len

/-- Row `r` of a grid as a line. -/
def rowCells (g : Grid) (r : Nat) : Nat → Option Token := fun c => gcell g r c

/-- Column `c` of a grid as a line. -/
def colCells (g : Grid) (c : Nat) : Nat → Option Token := fun r => gcell g r c

/-- Cell `(r, c)` is added by the horizontal pass of `findMatches` (whose row loop
runs over `0 ≤ r < 8`). -/
def hMatchedB (g : Grid) (r c : Nat) : Bool :=
  decide (r < 8) && lineMatchedB (rowCells g r) c

/-- Cell `(r, c)` is added by the vertical pass of `findMatches` (whose column
loop runs over `0 ≤ c < 8`). -/
def vMatchedB (g : Grid) (r c : Nat) : Bool :=
  decide (c < 8) && lineMatchedB (colCells g c) r

/-- Cell `(r, c)` is in the (de-duplicated) match set returned by `findMatches`. -/
def matchedB (g : Grid) (r c : Nat) : Bool := hMatchedB g r c || vMatchedB g r c

/-- Spec side: `(r, c)` lies in some horizontal run of ≥ 3 same-kind tokens. -/
def hRunB (g : Grid) (r c : Nat) : Bool :=
  decide (r < 8) && lineRunB (rowCells g r) c

/-- Spec side: `(r, c)` lies in some vertical run of ≥ 3 same-kind tokens. -/
def vRunB (g : Grid) (r c : Nat) : Bool :=
  decide (c < 8) && lineRunB (colCells g c) r

/-- Spec side: `(r, c)` lies in some horizontal or vertical run of ≥ 3
consecutive same-kind tokens (no diagonals). -/
def runMemB (g : Grid) (r c : Nat) : Bool := hRunB g r c || vRunB g r c

/-- Source `findMatches(grid).length`: the number of distinct matched cells (the
source de-duplicates through a `Set` before taking the length). -/
def matchCount (g : Grid) : Nat :=
  ((List.range 8).map fun r =>
    ((List.range 8).filter fun c => matchedB g r c).length).sum

/-- The grid after `processCascade` sets every matched cell to `null`. -/
def clearMatched (g : Grid) : Grid :=
  rebuild fun r c => if matchedB g r c then none else gcell g r c

/-- The non-null cells of column `c`, top to bottom, each paired with its
original row.  The gravity loop of `processCascade` walks the column bottom
up and drops the j-th survivor from the bottom into slot `7 - j`; in
top-to-bottom terms the i-th survivor from the top lands in slot
`(8 - count) + i`. -/
def colSurvivors (g : Grid) (c : Nat) : List (Nat × Token) :=
  (List.range 8).filterMap fun r => (gcell g r c).map fun t => (r, t)

/-- Gravity and refill of `processCascade`.  Per column: the i-th surviving
token from the top lands in row `pad + i` where `pad = 8 - survivors`; the
source rewrites its `row`/`col` fields only when it actually moves
(`if (row !== emptyRow)`), otherwise the token object is kept verbatim.
Rows `0..pad-1` are refilled with freshly generated tokens. -/
def gravityRefill (sup : Refill) (g : Grid) : Grid :=
  rebuild fun r c =>
    let s := colSurvivors g c
    let pad := 8 - s.length
    if r < pad then some (freshToken sup r c)
    else
      match s.get? (r - pad) with
      | some rt =>
          some (if rt.1 = r then rt.2 else { rt.2 with row := r, col := c })
      | none => none

/-- One resolution step (`processCascade`): if the match set is empty return
the grid unchanged with count 0, else clear the matched cells, apply
gravity and refill, and return the number of cleared cells. -/
def processCascade (sup : Refill) (g : Grid) : Grid × Nat :=
  if matchCount g = 0 then (g, 0)
  else (gravityRefill sup (clearMatched g), matchCount g)

/-- The `while (true)` loop of `processCascadingMatches`, with one `Refill`
per iteration and explicit fuel (the source loop has no bound; `none` means
the fuel ran out before a zero-count step).  It carries the running combo
counter and accumulated score exactly as the source does and additionally
records the per-step match counts. -/
def cascadeLoop (sup : Nat → Refill) :
    Nat → Nat → Grid → Nat → Nat → Option (Grid × Nat × Nat × List Nat)
  | _, 0, _, _, _ => none
  | k, fuel + 1, g, combo, total =>
    let res := processCascade (sup k) g
    if res.2 = 0 then some (g, combo, total, [])
    else
      match cascadeLoop sup (k + 1) fuel res.1 (combo + 1)
          (total + res.2 * 10 * (combo + 1)) with
      | some (gf, cf, tf, cs) => some (gf, cf, tf, res.2 :: cs)
      | none => none

/-- The grid after `n` resolution steps (step `i` uses `sup i`). -/
def iterGrid (sup : Nat → Refill) (g : Grid) : Nat → Grid
  | 0 => g
  | n + 1 => (processCascade (sup n) (iterGrid sup g n)).1

/-- Score accumulated by the loop body when the combo counter has already
reached `a`: each further step with count `c` adds `c * 10 * (a + 1)`,
`c * 10 * (a + 2)`, and so on. -/
def scoreFrom (a : Nat) : List Nat → Nat
  | [] => 0
  | c :: cs => c * 10 * (a + 1) + scoreFrom (a + 1) cs

/-- The specification's cascade-score formula: for per-step counts
`[c1, ..., cn]` the score is `Σ (c_i × 10 × i)` with `i` 1-indexed. -/
def specCascadeScore (cs : List Nat) : Nat :=
  ((List.range cs.length).map fun i => cs.getD i 0 * 10 * (i + 1)).sum

/-- The four values of `gameStatus`. -/
inductive Status : Type where
  | menu | playing | levelComplete | gameOver
deriving DecidableEq, Repr

/-- Constant `INITIAL_MOVES` of the source. -/
def INITIAL_MOVES : Int := 20

/-- The `CascadeState` record of the source. -/
structure GameState : Type where
  grid : Grid
  score : Nat
  moves : Int
  level : Nat
  targetScore : Nat
  gameStatus : Status
  cascadeCombo : Nat
  selectedToken : Option (Nat × Nat)
  isProcessing : Bool
deriving DecidableEq, Repr

/-- Source `Math.floor(t * 1.5)` (exact for the integer targets that
occur, since 1.5 is exactly representable and the products stay far below
2^53), as exact rational arithmetic. -/
def nextTarget (t : Nat) : Nat := Nat.floor ((t : ℚ) * (3 / 2))

/-- The `setCascadeState` callback that `processCascadingMatches` runs after
its loop finishes: add the accumulated score, store the final grid, store
the combo counter (or 0 when no score was gained), clear the processing
flag, and — when the new score reaches the target while still `playing` —
transition to `levelComplete` with level+1, target × 1.5 floored, and moves
reset to `INITIAL_MOVES`.  (In the non-levelling branch the source's
unconditional `Math.floor(targetScore)` is the identity on the integer
target.) -/
def applyCascadeResult (prev : GameState) (g : Grid) (combo total : Nat) :
    GameState :=
  if prev.targetScore ≤ prev.score + total ∧ prev.gameStatus = Status.playing
  then
    { prev with
      grid := g,
      score := prev.score + total,
      cascadeCombo := if 0 < total then combo else 0,
      isProcessing := false,
      gameStatus := Status.levelComplete,
      level := prev.level + 1,
      targetScore := nextTarget prev.targetScore,
      moves := INITIAL_MOVES }
  else
    { prev with
      grid := g,
      score := prev.score + total,
      cascadeCombo := if 0 < total then combo else 0,
      isProcessing := false }

/-- The hypothetical post-swap grid of `handleTokenClick`: exchange the
cells at `sel` and `clk` and update the two moved tokens' stored
positions. -/
def swapGrid (g : Grid) (sel clk : Nat × Nat) : Grid :=
  rebuild fun r c =>
    if r = clk.1 ∧ c = clk.2 then
      (gcell g sel.1 sel.2).map fun t => { t with row := clk.1, col := clk.2 }
    else if r = sel.1 ∧ c = sel.2 then
      (gcell g clk.1 clk.2).map fun t => { t with row := sel.1, col := sel.2 }
    else gcell g r c

/-- The adjacency test of `handleTokenClick`:
`(|Δrow| = 1 ∧ |Δcol| = 0) ∨ (|Δrow| = 0 ∧ |Δcol| = 1)`. -/
def isAdjacentB (a b : Nat × Nat) : Bool :=
  (decide (((a.1 : Int) - b.1).natAbs = 1) &&
     decide (((a.2 : Int) - b.2).natAbs = 0)) ||
  (decide (((a.1 : Int) - b.1).natAbs = 0) &&
     decide (((a.2 : Int) - b.2).natAbs = 1))

/-- Source `handleTokenClick` as a state transition (the asynchronous cascade that
a committed swap schedules is modelled separately by `cascadeLoop` /
`applyCascadeResult`): input is ignored while processing or when not
playing; a first click records a selection; a click adjacent to the pending
selection attempts the swap — committed (move spent, processing set, and
`gameOver` when moves run out below target) exactly when the post-swap grid
has a match, discarded otherwise; a non-adjacent click replaces the
selection. -/
def handleTokenClick (st : GameState) (p : Nat × Nat) : GameState :=
  if st.isProcessing = true ∨ st.gameStatus ≠ Status.playing then st
  else
    match st.selectedToken with
    | none => { st with selectedToken := some p }
    | some sel =>
      if isAdjacentB sel p = true then
        if 0 < matchCount (swapGrid st.grid sel p) then
          { st with
            grid := swapGrid st.grid sel p,
            selectedToken := none,
            isProcessing := true,
            moves := st.moves - 1,
            gameStatus :=
              if st.moves - 1 ≤ 0 ∧ st.score < st.targetScore then
                Status.gameOver
              else st.gameStatus }
        else { st with selectedToken := none }
      else { st with selectedToken := some p }

/-- A cell satisfies the position invariant: if occupied, the token's stored
`row`/`col` equal the slot coordinates. -/
def cellOkB (o : Option Token) (r c : Nat) : Bool :=
  match o with
  | some t => decide (t.row = r) && decide (t.col = c)
  | none => true

/-- The position invariant over the 8×8 board: every token's stored position
equals its grid slot. -/
def posInv (g : Grid) : Prop :=
  ∀ r : Nat, r < 8 → ∀ c : Nat, c < 8 → cellOkB (gcell g r c) r c = true

/-- The position invariant is decidable, so it can be checked on concrete
grids. -/
instance (g : Grid) : Decidable (posInv g) :=
  inferInstanceAs
    (Decidable (∀ r, r < 8 → ∀ c, c < 8 → cellOkB (gcell g r c) r c = true))

/-- Every cell of the 8×8 board holds a token of kind `k`. -/
def allKind (g : Grid) (k : TokenType) : Prop :=
  ∀ r : Nat, r < 8 → ∀ c : Nat, c < 8 → (gcell g r c).map Token.type = some k

/-- Predicate `allKind` is decidable, so it can be checked on concrete grids. -/
instance (g : Grid) (k : TokenType) : Decidable (allKind g k) :=
  inferInstanceAs
    (Decidable (∀ r, r < 8 → ∀ c, c < 8 → (gcell g r c).map Token.type = some k))

/-- A match-free checkerboard kind pattern: even rows alternate ETH/BTC,
odd rows alternate USDC/MATIC, so no line contains 3 equal consecutive
kinds. -/
def baseKind (r c : Nat) : TokenType :=
  if r % 2 = 0 then
    if c % 2 = 0 then TokenType.ETH else TokenType.BTC
  else
    if c % 2 = 0 then TokenType.USDC else TokenType.MATIC

/-- A token with the given kind whose stored position is its slot. -/
def mkTok (k : TokenType) (r c : Nat) : Token :=
  { id := 8 * r + c, type := k, row := r, col := c,
    isMatched := false, isFalling := false }

/-- A concrete match-free 8×8 grid. -/
def baseGrid : Grid := rebuild fun r c => some (mkTok (baseKind r c) r c)

/-- A refill source with a constant kind. -/
def refillConst (k : TokenType) (base : Nat) : Refill :=
  { kind := fun _ _ => k, idv := fun r c => base + 8 * r + c }

/-- A refill source alternating USDC/MATIC by column parity. -/
def refillAlt : Refill :=
  { kind := fun _ c => if c % 2 = 0 then TokenType.USDC else TokenType.MATIC,
    idv := fun r c => 200 + 8 * r + c }

/-- The base grid with a WETH triple planted at row 7, columns 0–2. -/
def c2grid : Grid :=
  rebuild fun r c =>
    some (mkTok (if r = 7 ∧ c < 3 then TokenType.WETH else baseKind r c) r c)

/-- Refill schedule for the two-step cascade scenario: step 0 refills with
BTC (extending the BTC at (0,3) into a 4-run on the next scan), step 1 and
later refill with the match-free USDC/MATIC alternation. -/
def c2sup : Nat → Refill :=
  fun n => if n = 0 then refillConst TokenType.BTC 100 else refillAlt

/-- The base grid with WETH planted at (7,0), (7,1) and (6,2): swapping
(6,2) with (7,2) completes a WETH triple in row 7. -/
def c7grid : Grid :=
  rebuild fun r c =>
    some (mkTok
      (if (r = 7 ∧ c < 2) ∨ (r = 6 ∧ c = 2) then TokenType.WETH
       else baseKind r c) r c)

/-- Concrete state for the last-move swap scenario: one move left, score 800
below the target 1000, the cell (6,2) pending. -/
def c7state : GameState :=
  { grid := c7grid, score := 800, moves := 1, level := 1, targetScore := 1000,
    gameStatus := Status.playing, cascadeCombo := 0,
    selectedToken := some (6, 2), isProcessing := false }

/-- Concrete state for the discarded-swap scenario: (0,0) pending; swapping
it with (0,1) on the match-free base grid produces no match. -/
def c6state : GameState :=
  { grid := baseGrid, score := 300, moves := 12, level := 1,
    targetScore := 1000, gameStatus := Status.playing, cascadeCombo := 0,
    selectedToken := some (0, 0), isProcessing := false }

/-- Concrete state for the level-completion scenario: score 900 plus a
cascade total of 100 reaches the target 1000 exactly. -/
def c5state : GameState :=
  { grid := baseGrid, score := 900, moves := 5, level := 1,
    targetScore := 1000, gameStatus := Status.playing, cascadeCombo := 0,
    selectedToken := none, isProcessing := true }

/-- Concrete state for the cascade-completion scenario of the score claim:
the post-swap state of the spec scenario (moves already decremented to 19,
score 0, target 1000). -/
def c2state : GameState :=
  { grid := c2grid, score := 0, moves := 19, level := 1, targetScore := 1000,
    gameStatus := Status.playing, cascadeCombo := 0,
    selectedToken := none, isProcessing := true }

/-- A transient grid holding a single token at (0,0) and holes everywhere
else: it has no match, and column 0 has its occupied cell above 7 empty
ones. -/
def holeGrid : Grid :=
  rebuild fun r c =>
    if r = 0 ∧ c = 0 then some (mkTok TokenType.ETH 0 0) else none

/-- A token stored with a corrupted position: it sits at slot (7,0) but
claims row 0. -/
def corruptTok : Token :=
  { id := 999, type := TokenType.WETH, row := 0, col := 0,
    isMatched := false, isFalling := false }

/-- The base grid with a BASE triple at row 0, columns 4–6 (so one step
really runs) and the corrupted token at slot (7,0); column 0 is full, so the
gravity pass leaves its tokens in place and never rewrites their stored
positions. -/
def corruptGrid : Grid :=
  rebuild fun r c =>
    if r = 7 ∧ c = 0 then some corruptTok
    else
      some (mkTok
        (if r = 0 ∧ 4 ≤ c ∧ c ≤ 6 then TokenType.BASE else baseKind r c) r c)

/-- An 8×8 grid holding only ETH tokens. -/
def allSameGrid : Grid := rebuild fun r c => some (mkTok TokenType.ETH r c)

/-- A refill schedule that always produces ETH: an adversarial random
source for the termination claim. -/
def ethSup : Nat → Refill := fun _ => refillConst TokenType.ETH 300

/-! ### Basic lemmas about the embedding -/

theorem gcell_rebuild (f : Nat → Nat → Option Token) (r c : Nat)
    (hr : r < 8) (hc : c < 8) : gcell (rebuild f) r c = f r c := by
  unfold gcell rebuild
  rw [List.getD, List.getD, List.get?_map, List.get?_range hr,
    Option.map_some', Option.getD_some, List.get?_map, List.get?_range hc,
    Option.map_some', Option.getD_some]

theorem winB_iff (f : Nat → Option Token) (i : Nat) :
    winB f i = true ↔
      ∃ k, fkind f i = some k ∧ fkind f (i + 1) = some k ∧
        fkind f (i + 2) = some k := by
  unfold winB fkind
  rcases h1 : f i with _ | t1 <;> rcases h2 : f (i + 1) with _ | t2 <;>
    rcases h3 : f (i + 2) with _ | t3 <;>
    simp only [h1, h2, h3, Option.map_some', Option.map_none',
      Bool.and_eq_true, decide_eq_true_eq, Option.some.injEq,
      Bool.false_eq_true, false_iff] <;>
    try (rintro ⟨k, hk1, hk2, hk3⟩; simp_all)
  constructor
  · rintro ⟨ha, hb⟩
    exact ⟨t1.type, rfl, ha.symm, (ha.trans hb).symm⟩
  · rintro ⟨k, hk1, hk2, hk3⟩
    exact ⟨hk1.trans hk2.symm, hk2.trans hk3.symm⟩

theorem segB_iff (f : Nat → Option Token) (lo len : Nat) (hlen : 0 < len) :
    segB f lo len = true ↔
      ∃ k, ∀ d, d < len → fkind f (lo + d) = some k := by
  unfold segB
  rcases hk : fkind f lo with _ | k
  · simp only [Bool.false_eq_true, false_iff]
    rintro ⟨k, hall⟩
    have h0 := hall 0 hlen
    rw [Nat.add_zero] at h0
    rw [hk] at h0
    exact Option.noConfusion h0
  · simp only [List.all_eq_true, List.mem_range, decide_eq_true_eq]
    constructor
    · intro hall
      exact ⟨k, fun d hd => hall d hd⟩
    · rintro ⟨k', hall⟩ d hd
      have h0 := hall 0 hlen
      rw [Nat.add_zero] at h0
      rw [hk] at h0
      have : k = k' := Option.some.inj h0
      rw [hall d hd, this]

theorem lineMatchedB_iff (f : Nat → Option Token) (j : Nat) :
    lineMatchedB f j = true ↔
      ∃ i, i < 6 ∧ i ≤ j ∧ j ≤ i + 2 ∧ winB f i = true := by
  unfold lineMatchedB
  simp only [List.any_eq_true, List.mem_range, Bool.and_eq_true,
    decide_eq_true_eq]
  constructor
  · rintro ⟨i, hi, ⟨hw, hij⟩, hji⟩
    exact ⟨i, hi, hij, hji, hw⟩
  · rintro ⟨i, hi, hij, hji, hw⟩
    exact ⟨i, hi, ⟨hw, hij⟩, hji⟩

theorem lineRunB_iff (f : Nat → Option Token) (j : Nat) :
    lineRunB f j = true ↔
      ∃ lo len, 3 ≤ len ∧ lo + len ≤ 8 ∧ lo ≤ j ∧ j < lo + len ∧
        segB f lo len = true := by
  unfold lineRunB
  simp only [List.any_eq_true, List.mem_range, Bool.and_eq_true,
    decide_eq_true_eq]
  constructor
  · rintro ⟨lo, _, len, _, ⟨⟨⟨⟨h3, h8⟩, hlo⟩, hj⟩, hseg⟩⟩
    exact ⟨lo, len, h3, h8, hlo, hj, hseg⟩
  · rintro ⟨lo, len, h3, h8, hlo, hj, hseg⟩
    exact ⟨lo, by omega, len, by omega, ⟨⟨⟨⟨h3, h8⟩, hlo⟩, hj⟩, hseg⟩⟩

theorem lineMatchedB_eq_lineRunB (f : Nat → Option Token) (j : Nat) :
    lineMatchedB f j = lineRunB f j := by
  have hiff : lineMatchedB f j = true ↔ lineRunB f j = true := by
    rw [lineMatchedB_iff, lineRunB_iff]
    constructor
    · rintro ⟨i, hi, hij, hji, hw⟩
      rcases (winB_iff f i).mp hw with ⟨k, hk0, hk1, hk2⟩
      refine ⟨i, 3, le_refl 3, by omega, hij, by omega, ?_⟩
      rw [segB_iff f i 3 (by omega)]
      refine ⟨k, fun d hd => ?_⟩
      interval_cases d
      · rw [Nat.add_zero]; exact hk0
      · exact hk1
      · exact hk2
    · rintro ⟨lo, len, h3, h8, hlo, hj, hseg⟩
      rcases (segB_iff f lo len (by omega)).mp hseg with ⟨k, hall⟩
      refine ⟨min j (lo + len - 3), by omega, by omega, by omega, ?_⟩
      rw [winB_iff]
      refine ⟨k, ?_, ?_, ?_⟩
      · have h := hall (min j (lo + len - 3) - lo) (by omega)
        rw [show lo + (min j (lo + len - 3) - lo) = min j (lo + len - 3)
          by omega] at h
        exact h
      · have h := hall (min j (lo + len - 3) + 1 - lo) (by omega)
        rw [show lo + (min j (lo + len - 3) + 1 - lo) =
          min j (lo + len - 3) + 1 by omega] at h
        exact h
      · have h := hall (min j (lo + len - 3) + 2 - lo) (by omega)
        rw [show lo + (min j (lo + len - 3) + 2 - lo) =
          min j (lo + len - 3) + 2 by omega] at h
        exact h
  cases hm : lineMatchedB f j <;> cases hr : lineRunB f j <;> simp_all

theorem fkind_rowCells (g : Grid) (r i : Nat) :
    fkind (rowCells g r) i = (gcell g r i).map Token.type := rfl

theorem fkind_colCells (g : Grid) (c i : Nat) :
    fkind (colCells g c) i = (gcell g i c).map Token.type := rfl

/-- C1: the Match Detector is exactly run membership.  `matchedB g r c`
(membership in the set `findMatches` returns) coincides, as a characteristic
function on coordinates and hence as a set, with membership in some
horizontal or vertical run of 3 or more consecutive same-kind tokens; in
particular, on a grid with no such run the detector returns the empty
set. -/
theorem c1_findMatches_eq_runs (g : Grid) (r c : Nat) :
    matchedB g r c = runMemB g r c := by
  unfold matchedB runMemB hMatchedB hRunB vMatchedB vRunB
  rw [lineMatchedB_eq_lineRunB, lineMatchedB_eq_lineRunB]

/-- C10: every coordinate the Match Detector returns holds a non-null
token — an empty slot never participates in a match, and in particular two
same-kind tokens separated by an empty slot never form a window. -/
theorem c10_matches_occupied (g : Grid) (r c : Nat)
    (h : matchedB g r c = true) : gcell g r c ≠ none := by
  unfold matchedB at h
  rw [Bool.or_eq_true] at h
  rcases h with h | h
  · unfold hMatchedB at h
    rw [Bool.and_eq_true] at h
    rcases h with ⟨-, hline⟩
    rcases (lineMatchedB_iff _ _).mp hline with ⟨i, _, hij, hji, hw⟩
    rcases (winB_iff _ _).mp hw with ⟨k, hk0, hk1, hk2⟩
    rw [fkind_rowCells] at hk0 hk1 hk2
    have hc3 : c = i ∨ c = i + 1 ∨ c = i + 2 := by omega
    intro hnone
    rcases hc3 with hcv | hcv | hcv <;> rw [hcv] at hnone <;>
      simp_all
  · unfold vMatchedB at h
    rw [Bool.and_eq_true] at h
    rcases h with ⟨-, hline⟩
    rcases (lineMatchedB_iff _ _).mp hline with ⟨i, _, hij, hji, hw⟩
    rcases (winB_iff _ _).mp hw with ⟨k, hk0, hk1, hk2⟩
    rw [fkind_colCells] at hk0 hk1 hk2
    have hr3 : r = i ∨ r = i + 1 ∨ r = i + 2 := by omega
    intro hnone
    rcases hr3 with hrv | hrv | hrv <;> rw [hrv] at hnone <;>
      simp_all

/-- A witness grid for the occupancy claim: the planted WETH triple makes
(7,0) a matched cell, and the theorem yields that its slot is occupied. -/
theorem c10_matches_occupied_witness :
    matchedB c2grid 7 0 = true ∧ gcell c2grid 7 0 ≠ none :=
  ⟨by decide, c10_matches_occupied c2grid 7 0 (by decide)⟩

theorem processCascade_snd (sup : Refill) (g : Grid) :
    (processCascade sup g).2 = matchCount g := by
  unfold processCascade
  split
  · rename_i h
    rw [h]
  · rfl

theorem processCascade_fst_of_ne (sup : Refill) (g : Grid)
    (h : matchCount g ≠ 0) :
    (processCascade sup g).1 = gravityRefill sup (clearMatched g) := by
  unfold processCascade
  rw [if_neg h]

/-- C3: a resolution step on a grid in which the Match Detector finds no
matches returns the very same grid together with a cleared-cell count of 0
(the step is idempotent at its fixpoint). -/
theorem c3_step_fixpoint (sup : Refill) (g : Grid)
    (h : matchCount g = 0) : processCascade sup g = (g, 0) := by
  unfold processCascade
  rw [if_pos h]

/-- Witness: on the concrete match-free checkerboard grid, one resolution
step returns the same grid and count 0. -/
theorem c3_step_fixpoint_witness :
    matchCount baseGrid = 0 ∧
      processCascade (refillConst TokenType.ETH 0) baseGrid = (baseGrid, 0) :=
  ⟨by decide, c3_step_fixpoint (refillConst TokenType.ETH 0) baseGrid
    (by decide)⟩

theorem matchCount_ne_zero_of_matched (g : Grid) (r c : Nat) (hr : r < 8)
    (hc : c < 8) (h : matchedB g r c = true) : matchCount g ≠ 0 := by
  unfold matchCount
  have hmemc : c ∈ (List.range 8).filter fun x => matchedB g r x := by
    rw [List.mem_filter, List.mem_range]
    exact ⟨hc, h⟩
  have hlen : 0 < ((List.range 8).filter fun x => matchedB g r x).length :=
    List.length_pos.mpr (List.ne_nil_of_mem hmemc)
  have hmemr :
      ((List.range 8).filter fun x => matchedB g r x).length ∈
        (List.range 8).map fun y =>
          ((List.range 8).filter fun x => matchedB g y x).length :=
    List.mem_map.mpr ⟨r, List.mem_range.mpr hr, rfl⟩
  have := List.single_le_sum (fun x _ => Nat.zero_le x) _ hmemr
  omega

theorem colSurvivors_length_le (g : Grid) (c : Nat) :
    (colSurvivors g c).length ≤ 8 := by
  have h := List.length_filterMap_le
    (fun r => (gcell g r c).map fun t => (r, t)) (List.range 8)
  rw [List.length_range] at h
  exact h

theorem colSurvivors_mem (g : Grid) (c : Nat) (rt : Nat × Token)
    (h : rt ∈ colSurvivors g c) : gcell g rt.1 c = some rt.2 ∧ rt.1 < 8 := by
  unfold colSurvivors at h
  rcases List.mem_filterMap.mp h with ⟨a, ha, hfa⟩
  rcases Option.map_eq_some'.mp hfa with ⟨t, ht, hat⟩
  have h1 : rt.1 = a := by rw [← hat]
  have h2 : rt.2 = t := by rw [← hat]
  rw [h1, h2]
  exact ⟨ht, List.mem_range.mp ha⟩

theorem gravityRefill_cell (sup : Refill) (g : Grid) (r c : Nat)
    (hr : r < 8) (hc : c < 8) :
    gcell (gravityRefill sup g) r c =
      if r < 8 - (colSurvivors g c).length then some (freshToken sup r c)
      else
        match (colSurvivors g c).get? (r - (8 - (colSurvivors g c).length))
          with
        | some rt =>
            some (if rt.1 = r then rt.2 else { rt.2 with row := r, col := c })
        | none => none := by
  unfold gravityRefill
  rw [gcell_rebuild _ _ _ hr hc]

theorem gravityRefill_occupied (sup : Refill) (g : Grid) (r c : Nat)
    (hr : r < 8) (hc : c < 8) : gcell (gravityRefill sup g) r c ≠ none := by
  rw [gravityRefill_cell sup g r c hr hc]
  split
  · exact fun h => Option.noConfusion h
  · rename_i hge
    have hlen := colSurvivors_length_le g c
    have hlt : r - (8 - (colSurvivors g c).length) <
        (colSurvivors g c).length := by omega
    rw [List.get?_eq_get hlt]
    exact fun h => Option.noConfusion h

theorem gravityRefill_survivor (sup : Refill) (g : Grid) (c j : Nat)
    (hc : c < 8) (hj : j < (colSurvivors g c).length) :
    gcell (gravityRefill sup g) (8 - (colSurvivors g c).length + j) c =
      some
        (if ((colSurvivors g c).get ⟨j, hj⟩).1 =
            8 - (colSurvivors g c).length + j then
          ((colSurvivors g c).get ⟨j, hj⟩).2
        else
          { ((colSurvivors g c).get ⟨j, hj⟩).2 with
            row := 8 - (colSurvivors g c).length + j, col := c }) := by
  have hlen := colSurvivors_length_le g c
  have hr : 8 - (colSurvivors g c).length + j < 8 := by omega
  rw [gravityRefill_cell sup g _ c hr hc]
  rw [if_neg (by omega)]
  rw [show 8 - (colSurvivors g c).length + j -
    (8 - (colSurvivors g c).length) = j by omega]
  rw [List.get?_eq_get hj]

/-- C4 (counterexample to the claim as stated): the compaction claim fails
on two counts.  First, a resolution step on a grid with no matches returns
it unchanged, holes included: on the concrete transient grid holding a
single token at (0,0), the step leaves column 0 with its occupied cell above
seven empty slots, so "after the step no column has an empty slot below an
occupied one" is false.  Second, the gravity pass rewrites a surviving
token's stored `row` only when the token moves: on the concrete grid whose
full column 0 carries a token at slot (7,0) whose stored row is 0, a step
that does clear a (distant) match keeps that token verbatim, so "each
surviving token's stored row field is updated to its new slot" is false. -/
theorem c4_cex_compaction :
    (processCascade (refillConst TokenType.ETH 0) holeGrid = (holeGrid, 0) ∧
      gcell holeGrid 0 0 ≠ none ∧ gcell holeGrid 7 0 = none) ∧
    (matchCount corruptGrid ≠ 0 ∧
      gcell ((processCascade (refillConst TokenType.ETH 0) corruptGrid).1)
          7 0 = some corruptTok ∧
      corruptTok.row = 0) := by
  constructor
  · exact ⟨by decide, by decide, by decide⟩
  · exact ⟨by decide, by decide, by decide⟩

/-- C4 (amended): for every grid on which the step finds at least one match
(`matchCount g ≠ 0`) and every cell `(r, c)` of the board, with `s` the list
of surviving (non-cleared) cells of column `c` from top to bottom, paired
with their original rows, and `pad = 8 - s.length`, (1) the cell of the
resulting grid is occupied — so no empty slot sits below an occupied one
anywhere, also in fully cleared columns; (2) if `r < pad` the cell holds a
freshly generated token; (3) every j-th survivor of the column lands in row
`pad + j` — survivors keep their relative order, ids and kinds — and its
stored position is rewritten to its landing slot exactly when it moved, a
token already in place being kept verbatim.  (A step that finds no matches
returns the grid unchanged, holes and all.) -/
theorem c4_step_compaction (sup : Refill) (g : Grid) (r c : Nat)
    (hm : matchCount g ≠ 0) (hr : r < 8) (hc : c < 8) :
    gcell ((processCascade sup g).1) r c ≠ none ∧
    (r < 8 - (colSurvivors (clearMatched g) c).length →
      gcell ((processCascade sup g).1) r c = some (freshToken sup r c)) ∧
    (∀ j : Nat, ∀ hj : j < (colSurvivors (clearMatched g) c).length,
      gcell ((processCascade sup g).1)
          (8 - (colSurvivors (clearMatched g) c).length + j) c =
        some
          (if ((colSurvivors (clearMatched g) c).get ⟨j, hj⟩).1 =
              8 - (colSurvivors (clearMatched g) c).length + j then
            ((colSurvivors (clearMatched g) c).get ⟨j, hj⟩).2
          else
            { ((colSurvivors (clearMatched g) c).get ⟨j, hj⟩).2 with
              row := 8 - (colSurvivors (clearMatched g) c).length + j,
              col := c })) := by
  rw [processCascade_fst_of_ne sup g hm]
  refine ⟨gravityRefill_occupied sup (clearMatched g) r c hr hc, ?_, ?_⟩
  · intro hpad
    rw [gravityRefill_cell sup (clearMatched g) r c hr hc, if_pos hpad]
  · intro j hj
    exact gravityRefill_survivor sup (clearMatched g) c j hc hj

/-- Witness for the amended compaction theorem on the concrete grid with the
WETH triple in row 7: its cleared column 0 keeps 7 survivors, and the
theorem is applied at cell (0,0) — covering the occupancy, refill and
per-survivor conclusions of that column. -/
theorem c4_step_compaction_witness :
    matchCount c2grid ≠ 0 ∧
      (colSurvivors (clearMatched c2grid) 0).length = 7 ∧
      (gcell ((processCascade (refillConst TokenType.BTC 100) c2grid).1)
          0 0 ≠ none ∧
        (0 < 8 - (colSurvivors (clearMatched c2grid) 0).length →
          gcell ((processCascade (refillConst TokenType.BTC 100) c2grid).1)
              0 0 =
            some (freshToken (refillConst TokenType.BTC 100) 0 0)) ∧
        (∀ j : Nat, ∀ hj : j < (colSurvivors (clearMatched c2grid) 0).length,
          gcell ((processCascade (refillConst TokenType.BTC 100) c2grid).1)
              (8 - (colSurvivors (clearMatched c2grid) 0).length + j) 0 =
            some
              (if ((colSurvivors (clearMatched c2grid) 0).get ⟨j, hj⟩).1 =
                  8 - (colSurvivors (clearMatched c2grid) 0).length + j then
                ((colSurvivors (clearMatched c2grid) 0).get ⟨j, hj⟩).2
              else
                { ((colSurvivors (clearMatched c2grid) 0).get ⟨j, hj⟩).2 with
                  row :=
                    8 - (colSurvivors (clearMatched c2grid) 0).length + j,
                  col := 0 }))) :=
  ⟨by decide, by decide,
    c4_step_compaction (refillConst TokenType.BTC 100) c2grid 0 0
      (by decide) (by decide) (by decide)⟩

theorem cellOkB_some_iff (t : Token) (r c : Nat) :
    cellOkB (some t) r c = true ↔ t.row = r ∧ t.col = c := by
  unfold cellOkB
  rw [Bool.and_eq_true, decide_eq_true_eq, decide_eq_true_eq]

theorem posInv_clearMatched (g : Grid) (h : posInv g) :
    posInv (clearMatched g) := by
  intro r hr c hc
  unfold clearMatched
  rw [gcell_rebuild _ _ _ hr hc]
  split
  · rfl
  · exact h r hr c hc

theorem gravityRefill_cell_surv (sup : Refill) (g : Grid) (r c : Nat)
    (hr : r < 8) (hc : c < 8)
    (hge : ¬r < 8 - (colSurvivors g c).length)
    (hlt : r - (8 - (colSurvivors g c).length) <
      (colSurvivors g c).length) :
    gcell (gravityRefill sup g) r c =
      some
        (if ((colSurvivors g c).get
              ⟨r - (8 - (colSurvivors g c).length), hlt⟩).1 = r then
          ((colSurvivors g c).get
            ⟨r - (8 - (colSurvivors g c).length), hlt⟩).2
        else
          { ((colSurvivors g c).get
              ⟨r - (8 - (colSurvivors g c).length), hlt⟩).2 with
            row := r, col := c }) := by
  rw [gravityRefill_cell sup g r c hr hc, if_neg hge,
    List.get?_eq_get hlt]

theorem posInv_gravityRefill (sup : Refill) (g : Grid) (h : posInv g) :
    posInv (gravityRefill sup g) := by
  intro r hr c hc
  by_cases hpad : r < 8 - (colSurvivors g c).length
  · rw [gravityRefill_cell sup g r c hr hc, if_pos hpad, cellOkB_some_iff]
    exact ⟨rfl, rfl⟩
  · have hlen := colSurvivors_length_le g c
    have hlt : r - (8 - (colSurvivors g c).length) <
        (colSurvivors g c).length := by omega
    rw [gravityRefill_cell_surv sup g r c hr hc hpad hlt,
      cellOkB_some_iff]
    set rt := (colSurvivors g c).get
      ⟨r - (8 - (colSurvivors g c).length), hlt⟩ with hrt
    have hmem : rt ∈ colSurvivors g c := List.get_mem _ _ hlt
    rcases colSurvivors_mem g c rt hmem with ⟨hcell, hr8⟩
    by_cases heq : rt.1 = r
    · rw [if_pos heq]
      have hok := h rt.1 hr8 c hc
      rw [hcell, cellOkB_some_iff] at hok
      exact ⟨hok.1.trans heq, hok.2⟩
    · rw [if_neg heq]
      exact ⟨rfl, rfl⟩

/-- C8: the position invariant — every token's stored `row`/`col` equal the
slot that holds it — holds for every grid the public operations produce:
`createInitialGrid` establishes it outright, and both the committed-swap
grid of `handleTokenClick` and a resolution step preserve it, so every grid
reachable through the game's operations satisfies it. -/
theorem c8_position_invariant (sup : Refill) (g : Grid) (sel p : Nat × Nat)
    (h : posInv g) :
    posInv (createInitialGrid sup) ∧ posInv (swapGrid g sel p) ∧
      posInv ((processCascade sup g).1) := by
  refine ⟨?_, ?_, ?_⟩
  · intro r hr c hc
    unfold createInitialGrid
    rw [gcell_rebuild _ _ _ hr hc, cellOkB_some_iff]
    exact ⟨rfl, rfl⟩
  · intro r hr c hc
    unfold swapGrid
    rw [gcell_rebuild _ _ _ hr hc]
    split
    · rename_i hclk
      rcases gcell g sel.1 sel.2 with _ | t
      · rfl
      · rw [Option.map_some', cellOkB_some_iff]
        exact ⟨hclk.1.symm, hclk.2.symm⟩
    · split
      · rename_i hsel
        rcases gcell g p.1 p.2 with _ | t
        · rfl
        · rw [Option.map_some', cellOkB_some_iff]
          exact ⟨hsel.1.symm, hsel.2.symm⟩
      · exact h r hr c hc
  · by_cases hm : matchCount g = 0
    · unfold processCascade
      rw [if_pos hm]
      exact h
    · rw [processCascade_fst_of_ne sup g hm]
      exact posInv_gravityRefill sup (clearMatched g)
        (posInv_clearMatched g h)

/-- Witness: the invariant theorem applied to the concrete checkerboard grid
(which satisfies the invariant), the swap (0,0) ↔ (0,1) and one resolution
step. -/
theorem c8_position_invariant_witness :
    posInv baseGrid ∧
      (posInv (createInitialGrid (refillConst TokenType.ETH 0)) ∧
        posInv (swapGrid baseGrid (0, 0) (0, 1)) ∧
        posInv ((processCascade (refillConst TokenType.ETH 0) baseGrid).1)) :=
  ⟨by decide,
    c8_position_invariant (refillConst TokenType.ETH 0) baseGrid (0, 0)
      (0, 1) (by decide)⟩

theorem nextTarget_eq (t : Nat) : nextTarget t = 3 * t / 2 := by
  have hcast : (t : ℚ) * (3 / 2) = ((3 * t : ℕ) : ℚ) / ((2 : ℕ) : ℚ) := by
    push_cast
    ring
  rw [nextTarget, hcast, Nat.floor_div_nat, Nat.floor_natCast]

theorem applyCascadeResult_moves_or (prev : GameState) (g : Grid)
    (combo total : Nat) :
    (applyCascadeResult prev g combo total).moves = prev.moves ∨
      (applyCascadeResult prev g combo total).gameStatus =
        Status.levelComplete := by
  unfold applyCascadeResult
  split
  · right
    rfl
  · left
    rfl

/-- C5: when a cascade sequence completes while the status is still
`playing` and the accumulated score reaches or passes the target (reaching
it exactly suffices), the completion callback transitions to
`levelComplete`, increments the level, multiplies the target by 1.5 floored
to an integer (`3t/2` on integers), and resets moves to the initial 20. -/
theorem c5_level_complete (prev : GameState) (gf : Grid) (combo total : Nat)
    (h1 : prev.gameStatus = Status.playing)
    (h2 : prev.targetScore ≤ prev.score + total) :
    (applyCascadeResult prev gf combo total).gameStatus =
        Status.levelComplete ∧
      (applyCascadeResult prev gf combo total).level = prev.level + 1 ∧
      (applyCascadeResult prev gf combo total).targetScore =
        3 * prev.targetScore / 2 ∧
      (applyCascadeResult prev gf combo total).moves = 20 := by
  unfold applyCascadeResult
  rw [if_pos ⟨h2, h1⟩]
  refine ⟨rfl, rfl, ?_, rfl⟩
  exact nextTarget_eq prev.targetScore

/-- Witness: a concrete playing state with score 900 and target 1000 plus a
cascade total of 100 — the target is reached exactly — levels up to level 2,
target 1500, moves 20. -/
theorem c5_level_complete_witness :
    (applyCascadeResult c5state baseGrid 1 100).gameStatus =
        Status.levelComplete ∧
      (applyCascadeResult c5state baseGrid 1 100).level = c5state.level + 1 ∧
      (applyCascadeResult c5state baseGrid 1 100).targetScore =
        3 * c5state.targetScore / 2 ∧
      (applyCascadeResult c5state baseGrid 1 100).moves = 20 :=
  c5_level_complete c5state baseGrid 1 100 (by decide) (by decide)

/-- C6: an adjacent-cell swap attempt whose hypothetical post-swap grid has
no match is discarded wholesale: the resulting state is the old state with
only the pending selection cleared — same grid object, same moves, no
processing flag, every other field untouched. -/
theorem c6_no_match_swap_discarded (st : GameState) (sel p : Nat × Nat)
    (h1 : st.isProcessing = false) (h2 : st.gameStatus = Status.playing)
    (h3 : st.selectedToken = some sel) (h4 : isAdjacentB sel p = true)
    (h5 : matchCount (swapGrid st.grid sel p) = 0) :
    handleTokenClick st p = { st with selectedToken := none } := by
  unfold handleTokenClick
  rw [if_neg (by simp [h1, h2]), h3]
  simp only []
  rw [if_pos h4, if_neg (by omega)]

/-- Witness: on the concrete match-free checkerboard state with (0,0)
pending, clicking the adjacent (0,1) discards the swap and only clears the
selection. -/
theorem c6_no_match_swap_discarded_witness :
    handleTokenClick c6state (0, 1) = { c6state with selectedToken := none } :=
  c6_no_match_swap_discarded c6state (0, 0) (0, 1) (by decide) (by decide)
    (by decide) (by decide) (by decide)

/-- C7: a swap whose post-swap grid has at least one match consumes exactly
one move; if that decrement brings moves to 0 while the score (before any
cascade points) is below the target, the returned state is already
`gameOver`; and the later cascade-completion callback never changes the
move count again except by the `levelComplete` reset — so the swap costs
one move no matter how many cascade steps follow. -/
theorem c7_match_swap_consumes_move (st : GameState) (sel p : Nat × Nat)
    (gf : Grid) (combo total : Nat)
    (h1 : st.isProcessing = false) (h2 : st.gameStatus = Status.playing)
    (h3 : st.selectedToken = some sel) (h4 : isAdjacentB sel p = true)
    (h5 : matchCount (swapGrid st.grid sel p) ≠ 0) :
    (handleTokenClick st p).moves = st.moves - 1 ∧
      (st.moves - 1 = 0 → st.score < st.targetScore →
        (handleTokenClick st p).gameStatus = Status.gameOver) ∧
      ((applyCascadeResult (handleTokenClick st p) gf combo total).moves =
          st.moves - 1 ∨
        (applyCascadeResult (handleTokenClick st p) gf combo
            total).gameStatus = Status.levelComplete) := by
  have hpos : 0 < matchCount (swapGrid st.grid sel p) :=
    Nat.pos_of_ne_zero h5
  have hclick : handleTokenClick st p =
      { st with
        grid := swapGrid st.grid sel p,
        selectedToken := none,
        isProcessing := true,
        moves := st.moves - 1,
        gameStatus :=
          if st.moves - 1 ≤ 0 ∧ st.score < st.targetScore then
            Status.gameOver
          else st.gameStatus } := by
    unfold handleTokenClick
    rw [if_neg (by simp [h1, h2]), h3]
    simp only []
    rw [if_pos h4, if_pos hpos]
  rw [hclick]
  refine ⟨rfl, ?_, ?_⟩
  · intro hm0 hlt
    simp only []
    rw [if_pos ⟨by omega, hlt⟩]
  · rcases applyCascadeResult_moves_or
      { st with
        grid := swapGrid st.grid sel p,
        selectedToken := none,
        isProcessing := true,
        moves := st.moves - 1,
        gameStatus :=
          if st.moves - 1 ≤ 0 ∧ st.score < st.targetScore then
            Status.gameOver
          else st.gameStatus } gf combo total with hmv | hst
    · left
      rw [hmv]
    · right
      exact hst

/-- Witness: on the concrete state with one move left, score 800 and target
1000, the committed swap (6,2) ↔ (7,2) completing a WETH triple drops moves
to 0 and the state is immediately `gameOver`; the completion callback keeps
moves at 0 (or would reset them only through `levelComplete`). -/
theorem c7_match_swap_consumes_move_witness :
    (handleTokenClick c7state (7, 2)).moves = c7state.moves - 1 ∧
      (c7state.moves - 1 = 0 → c7state.score < c7state.targetScore →
        (handleTokenClick c7state (7, 2)).gameStatus = Status.gameOver) ∧
      ((applyCascadeResult (handleTokenClick c7state (7, 2)) baseGrid 1
            30).moves = c7state.moves - 1 ∨
        (applyCascadeResult (handleTokenClick c7state (7, 2)) baseGrid 1
            30).gameStatus = Status.levelComplete) :=
  c7_match_swap_consumes_move c7state (6, 2) (7, 2) baseGrid 1 30
    (by decide) (by decide) (by decide) (by decide) (by decide)

theorem scoreFrom_eq_range (cs : List Nat) : ∀ a : Nat,
    scoreFrom a cs =
      ((List.range cs.length).map fun i =>
        cs.getD i 0 * 10 * (a + 1 + i)).sum := by
  induction cs with
  | nil =>
    intro a
    simp [scoreFrom]
  | cons c cs ih =>
    intro a
    rw [scoreFrom, List.length_cons, List.range_succ_eq_map, List.map_cons,
      List.sum_cons, List.map_map]
    have hhead : (c :: cs).getD 0 0 * 10 * (a + 1 + 0) = c * 10 * (a + 1) := by
      simp
    rw [hhead]
    have htail :
        (List.range cs.length).map
            ((fun i => (c :: cs).getD i 0 * 10 * (a + 1 + i)) ∘ Nat.succ) =
          (List.range cs.length).map fun i =>
            cs.getD i 0 * 10 * (a + 1 + 1 + i) := by
      apply List.map_congr_left
      intro i _
      show (c :: cs).getD (i + 1) 0 * 10 * (a + 1 + (i + 1)) =
        cs.getD i 0 * 10 * (a + 1 + 1 + i)
      rw [List.getD_cons_succ]
      ring
    rw [htail, ih (a + 1)]

theorem scoreFrom_zero_eq_spec (cs : List Nat) :
    scoreFrom 0 cs = specCascadeScore cs := by
  rw [scoreFrom_eq_range]
  unfold specCascadeScore
  congr 1
  apply List.map_congr_left
  intro i _
  ring

theorem scoreFrom_pos (a c : Nat) (cs : List Nat) (hc : c ≠ 0) :
    0 < scoreFrom a (c :: cs) := by
  have hc' : 0 < c := Nat.pos_of_ne_zero hc
  have hmul : 0 < c * 10 * (a + 1) :=
    Nat.mul_pos (Nat.mul_pos hc' (by omega)) (by omega)
  rw [scoreFrom]
  omega

theorem cascadeLoop_spec (sup : Nat → Refill) : ∀ fuel k : Nat,
    ∀ (g : Grid) (combo total : Nat) (gf : Grid) (cf tf : Nat)
      (cs : List Nat),
      cascadeLoop sup k fuel g combo total = some (gf, cf, tf, cs) →
      (∀ x ∈ cs, x ≠ 0) ∧ cf = combo + cs.length ∧
        tf = total + scoreFrom combo cs := by
  intro fuel
  induction fuel with
  | zero =>
    intro k g combo total gf cf tf cs h
    exact absurd h (by simp [cascadeLoop])
  | succ fuel ih =>
    intro k g combo total gf cf tf cs h
    simp only [cascadeLoop] at h
    by_cases hz : (processCascade (sup k) g).2 = 0
    · rw [if_pos hz] at h
      simp only [Option.some.injEq, Prod.mk.injEq] at h
      obtain ⟨hgf, hcf, htf, hcs⟩ := h
      subst hcs
      refine ⟨by simp, by rw [List.length_nil]; omega, ?_⟩
      rw [scoreFrom]
      omega
    · rw [if_neg hz] at h
      rcases hrec : cascadeLoop sup (k + 1) fuel (processCascade (sup k) g).1
          (combo + 1)
          (total + (processCascade (sup k) g).2 * 10 * (combo + 1)) with
        _ | ⟨gf', cf', tf', cs'⟩
      · rw [hrec] at h
        exact absurd h (by simp)
      · rw [hrec] at h
        simp only [Option.some.injEq, Prod.mk.injEq] at h
        obtain ⟨-, hcf, htf, hcs⟩ := h
        obtain ⟨hnz', hcf', htf'⟩ := ih (k + 1) (processCascade (sup k) g).1
          (combo + 1)
          (total + (processCascade (sup k) g).2 * 10 * (combo + 1))
          gf' cf' tf' cs' hrec
        subst hcs
        refine ⟨?_, ?_, ?_⟩
        · intro x hx
          rcases List.mem_cons.mp hx with hx | hx
          · rw [hx]
            exact hz
          · exact hnz' x hx
        · rw [← hcf, hcf', List.length_cons]
          omega
        · rw [← htf, htf', scoreFrom]
          omega

/-- C2: for every cascade sequence triggered by one swap whose successive
steps clear the (necessarily non-zero) counts `cs = [c1, ..., cn]`, `n ≥ 1`,
the loop's accumulated score equals `Σ c_i × 10 × i` with the combo
multiplier 1-indexed, the loop's combo counter equals `n`, and the
completion callback adds exactly that score to the state and stores combo
`n`; with counts `[3, 4]` from score 0 this yields score 110 and combo 2. -/
theorem c2_cascade_score_combo (sup : Nat → Refill) (fuel : Nat)
    (g gf : Grid) (combo total : Nat) (cs : List Nat) (st : GameState)
    (h : cascadeLoop sup 0 fuel g 0 0 = some (gf, combo, total, cs))
    (hne : cs ≠ []) :
    total = specCascadeScore cs ∧ combo = cs.length ∧
      (applyCascadeResult st gf combo total).score =
        st.score + specCascadeScore cs ∧
      (applyCascadeResult st gf combo total).cascadeCombo = cs.length := by
  obtain ⟨hnz, hcf, htf⟩ := cascadeLoop_spec sup fuel 0 g 0 0 gf combo total
    cs h
  have htotal : total = specCascadeScore cs := by
    rw [htf, Nat.zero_add, scoreFrom_zero_eq_spec]
  have hpos : 0 < total := by
    rcases cs with _ | ⟨c, cs'⟩
    · exact absurd rfl hne
    · have hc := hnz c (by simp)
      rw [htf, Nat.zero_add]
      exact scoreFrom_pos 0 c cs' hc
  have hscore : (applyCascadeResult st gf combo total).score =
      st.score + total := by
    unfold applyCascadeResult
    split <;> rfl
  have hcombo : (applyCascadeResult st gf combo total).cascadeCombo =
      if 0 < total then combo else 0 := by
    unfold applyCascadeResult
    split <;> rfl
  refine ⟨htotal, by omega, ?_, ?_⟩
  · rw [hscore, htotal]
  · rw [hcombo, if_pos hpos]
    omega

/-- Witness: the spec's concrete scenario.  On the grid with the planted
WETH triple, the scheduled refills produce exactly the two-step cascade with
counts [3, 4]; starting from the post-swap state with score 0 and target
1000, the loop yields total 110 and combo 2, and the completion callback
stores score 110 and combo 2. -/
theorem c2_cascade_score_combo_witness :
    (110 : Nat) = specCascadeScore [3, 4] ∧ 2 = List.length [3, 4] ∧
      (applyCascadeResult c2state (iterGrid c2sup c2grid 2) 2 110).score =
        c2state.score + specCascadeScore [3, 4] ∧
      (applyCascadeResult c2state (iterGrid c2sup c2grid 2) 2
          110).cascadeCombo = List.length [3, 4] :=
  c2_cascade_score_combo c2sup 3 c2grid (iterGrid c2sup c2grid 2) 2 110
    [3, 4] c2state (by decide) (by decide)

theorem iterGrid_shift_k (sup : Nat → Refill) (k : Nat) (g : Grid) :
    ∀ m : Nat,
      iterGrid (fun i => sup (k + i)) g (m + 1) =
        iterGrid (fun i => sup (k + 1 + i)) ((processCascade (sup k) g).1)
          m := by
  intro m
  induction m with
  | zero =>
    show (processCascade (sup (k + 0)) g).1 = (processCascade (sup k) g).1
    rw [Nat.add_zero]
  | succ m ih =>
    show (processCascade (sup (k + (m + 1)))
        (iterGrid (fun i => sup (k + i)) g (m + 1))).1 =
      (processCascade (sup (k + 1 + m))
        (iterGrid (fun i => sup (k + 1 + i))
          ((processCascade (sup k) g).1) m)).1
    rw [ih, show k + (m + 1) = k + 1 + m by omega]

theorem cascadeLoop_isSome_iff (sup : Nat → Refill) : ∀ fuel k : Nat,
    ∀ (g : Grid) (combo total : Nat),
      (cascadeLoop sup k fuel g combo total).isSome = true ↔
        ∃ n, n < fuel ∧
          matchCount (iterGrid (fun i => sup (k + i)) g n) = 0 := by
  intro fuel
  induction fuel with
  | zero =>
    intro k g combo total
    simp [cascadeLoop]
  | succ fuel ih =>
    intro k g combo total
    simp only [cascadeLoop]
    by_cases hz : (processCascade (sup k) g).2 = 0
    · rw [if_pos hz]
      have hm : matchCount g = 0 := by
        rw [← processCascade_snd (sup k) g]
        exact hz
      constructor
      · intro _
        exact ⟨0, by omega, hm⟩
      · intro _
        rfl
    · rw [if_neg hz]
      have hm : matchCount g ≠ 0 := by
        rw [← processCascade_snd (sup k) g]
        exact hz
      rcases hrec : cascadeLoop sup (k + 1) fuel (processCascade (sup k) g).1
          (combo + 1)
          (total + (processCascade (sup k) g).2 * 10 * (combo + 1)) with
        _ | ⟨gf, cf, tf, cs⟩
      · have hIff := ih (k + 1) (processCascade (sup k) g).1 (combo + 1)
          (total + (processCascade (sup k) g).2 * 10 * (combo + 1))
        rw [hrec] at hIff
        simp only [Option.isSome_none, Bool.false_eq_true, false_iff]
          at hIff ⊢
        rintro ⟨n, hn, h0⟩
        rcases n with _ | m
        · exact hm h0
        · refine hIff ⟨m, by omega, ?_⟩
          rw [← iterGrid_shift_k sup k g m]
          exact h0
      · have hIff := ih (k + 1) (processCascade (sup k) g).1 (combo + 1)
          (total + (processCascade (sup k) g).2 * 10 * (combo + 1))
        rw [hrec] at hIff
        simp only [Option.isSome_some, true_iff] at hIff
        obtain ⟨m, hmf, h0⟩ := hIff
        constructor
        · intro _
          refine ⟨m + 1, by omega, ?_⟩
          rw [iterGrid_shift_k sup k g m]
          exact h0
        · intro _
          rfl

/-- C9 (amended): the cascade loop runs to completion precisely when some
iterate of the resolution step reaches a grid with zero matches — the loop
(given fuel) returns a result if and only if, within that fuel, some
iteration of `processCascade` clears zero cells; termination is therefore a
property of the refill sequence, not a guarantee. -/
theorem c9_loop_completion (sup : Nat → Refill) (fuel : Nat) (g : Grid) :
    (cascadeLoop sup 0 fuel g 0 0).isSome = true ↔
      ∃ n, n < fuel ∧ matchCount (iterGrid sup g n) = 0 := by
  have h := cascadeLoop_isSome_iff sup fuel 0 g 0 0
  have hfun : (fun i => sup (0 + i)) = sup :=
    funext fun i => congrArg sup (Nat.zero_add i)
  rw [hfun] at h
  exact h

theorem allKind_matched (g : Grid) (k : TokenType) (h : allKind g k)
    (r c : Nat) (hr : r < 8) (hc : c < 8) : matchedB g r c = true := by
  unfold matchedB
  rw [Bool.or_eq_true]
  left
  unfold hMatchedB
  rw [Bool.and_eq_true]
  refine ⟨by simp [hr], ?_⟩
  rw [lineMatchedB_iff]
  refine ⟨min c 5, by omega, by omega, by omega, ?_⟩
  rw [winB_iff]
  refine ⟨k, ?_, ?_, ?_⟩
  · rw [fkind_rowCells]
    exact h r hr (min c 5) (by omega)
  · rw [fkind_rowCells]
    exact h r hr (min c 5 + 1) (by omega)
  · rw [fkind_rowCells]
    exact h r hr (min c 5 + 2) (by omega)

theorem allKind_step (g : Grid) (h : allKind g TokenType.ETH) :
    allKind ((processCascade (refillConst TokenType.ETH 300) g).1)
      TokenType.ETH := by
  have hm : matchCount g ≠ 0 :=
    matchCount_ne_zero_of_matched g 0 0 (by omega) (by omega)
      (allKind_matched g _ h 0 0 (by omega) (by omega))
  rw [processCascade_fst_of_ne _ _ hm]
  intro r hr c hc
  have hcleared : ∀ x : Nat, x < 8 → gcell (clearMatched g) x c = none := by
    intro x hx
    unfold clearMatched
    rw [gcell_rebuild _ _ _ hx hc]
    rw [if_pos (allKind_matched g _ h x c hx hc)]
  have hsurv : colSurvivors (clearMatched g) c = [] := by
    unfold colSurvivors
    rw [List.filterMap_eq_nil]
    intro a ha
    rw [hcleared a (List.mem_range.mp ha)]
    rfl
  rw [gravityRefill_cell _ _ r c hr hc, hsurv]
  simp only [List.length_nil, Nat.sub_zero]
  rw [if_pos hr]
  rfl

theorem allKind_iter (n : Nat) :
    allKind (iterGrid ethSup allSameGrid n) TokenType.ETH := by
  induction n with
  | zero =>
    intro r hr c hc
    show (gcell allSameGrid r c).map Token.type = some TokenType.ETH
    unfold allSameGrid
    rw [gcell_rebuild _ _ _ hr hc]
    rfl
  | succ n ih =>
    exact allKind_step _ ih

/-- C9 (counterexample to the claim as stated): the cascade loop does not
terminate from every grid.  With the concrete all-ETH grid and the refill
sequence that always produces ETH tokens, every iterate of the resolution
step still has matches (indeed every cell matches), so no step ever clears
zero cells and the `while (true)` loop never exits. -/
theorem c9_cex_nontermination :
    ¬∃ n, matchCount (iterGrid ethSup allSameGrid n) = 0 := by
  rintro ⟨n, h0⟩
  have h := allKind_iter n
  exact matchCount_ne_zero_of_matched _ 0 0 (by omega) (by omega)
    (allKind_matched _ _ h 0 0 (by omega) (by omega)) h0
